import Mathlib

/-!
Verification development for the fresnel seed issuance and sign-request
validation protocol.

The Go sources embedded here:
- appengine/endpoints/sign.go   (sign request validation, signed URL minting)
- the appengine endpoints seed handler (seed issuance)
- cli/installer/installer.go    (client seed request and persistence)
- models (Seed, SignRequest, SeedRequest, SeedResponse, SeedFile, status codes)

Modelling conventions:
- Go byte slices are lists of naturals; a nil slice is the empty list.
- time.Time and time.Duration are Int nanosecond counts.
- Environment variables are fields of an Env structure; an unset Go
  environment variable reads as the empty string, exactly as os.Getenv does.
- External collaborators (cloud storage reads, appengine certificate and
  signing services) are inputs bundled in a World structure.
- The asymmetric signing primitive is modelled symbolically: a signature is
  the pair of the signing key and the signed message, and verification
  succeeds exactly on that pair.  Messages are canonical JSON serializations
  of seeds; the serialization is injective (proved below via an explicit
  JSON codec), so the model indexes messages by the Seed value itself.
-/

deriving instance DecidableEq for Except

/-- Bytes of the Go code, modelled as lists of naturals. -/
abbrev Bytes := List Nat

/-- models.StatusCode: StatusSuccess = 0. -/
def StatusSuccess : Nat := 0

/-- models.StatusCode: StatusConfigError = iota + 100 at iota = 1. -/
def StatusConfigError : Nat := 101

/-- models.StatusCode: StatusReqUnreadable. -/
def StatusReqUnreadable : Nat := 102

/-- models.StatusCode: StatusJSONError. -/
def StatusJSONError : Nat := 103

/-- models.StatusCode: StatusSignError. -/
def StatusSignError : Nat := 104

/-- models.StatusCode: StatusSeedError. -/
def StatusSeedError : Nat := 105

/-- models.StatusCode: StatusSeedInvalidHash. -/
def StatusSeedInvalidHash : Nat := 106

/-- models.StatusCode: StatusInvalidUser. -/
def StatusInvalidUser : Nat := 107

/-- appengine.Certificate. KeyName is as in the platform structure.  The Data
field holds PEM bytes in Go; the model records what the decode pipeline of
validSeedSignature (pem.Decode, x509.ParseCertificate, RSA public key
extraction) yields from those bytes: some k for an RSA public key k, none
when any stage fails (such certificates are skipped, not errors). -/
structure Certificate where
  KeyName : String
  Data : Option Int
deriving DecidableEq, Repr

/-- models.Seed. Issued is a nanosecond timestamp; Hash is nil iff []. -/
structure Seed where
  Issued : Int
  Username : String
  Certs : List Certificate
  Hash : Bytes
deriving DecidableEq, Repr

/-- Symbolic signature: the signing key paired with the signed seed (the
message actually signed is the canonical JSON serialization of that seed,
which is injective, see seedFromJson_toJson). -/
structure Sig where
  key : Int
  msg : Seed
deriving DecidableEq, Repr

/-- models.SignRequest. -/
structure SignRequest where
  Seed : Seed
  Signature : Sig
  Mac : List String
  Path : String
  Hash : Bytes
deriving DecidableEq, Repr

/-- models.SignResponse. -/
structure SignResponse where
  Status : String
  ErrorCode : Nat
  SignedURL : String
deriving DecidableEq, Repr

/-- models.SeedRequest. -/
structure SeedRequest where
  Hash : Bytes
deriving DecidableEq, Repr

/-- models.SeedResponse. -/
structure SeedResponse where
  Status : String
  ErrorCode : Nat
  Seed : Seed
  Signature : Sig
deriving DecidableEq, Repr

/-- models.SeedFile: the artifact persisted by the installer, exactly the
Seed and Signature of a SeedResponse and nothing else. -/
structure SeedFile where
  Seed : Seed
  Signature : Sig
deriving DecidableEq, Repr

/-- Key of the platform signing identity currently used by appengine.SignBytes. -/
def appKey : Int := 0

/-- Model of appengine.SignBytes applied to the canonical JSON serialization
of a seed: a signature by the platform key over that serialization. -/
def signBytes (s : Seed) : Sig := { key := appKey, msg := s }

/-- Model of rsa.VerifyPKCS1v15 over the canonical JSON serialization of a
seed: the signature verifies under key k iff it is exactly the signature of
that serialization by k. -/
def rsaVerify (k : Int) (seed : Seed) (sig : Sig) : Bool :=
  sig == { key := k, msg := seed }

/-- Per-certificate step of the loop in validSeedSignature: certificates whose
Data does not decode to an RSA public key are skipped (false), otherwise the
signature is checked over the JSON serialization of the presented seed. -/
def certVerifies (c : Certificate) (seed : Seed) (sig : Sig) : Bool :=
  match c.Data with
  | none => false
  | some k => rsaVerify k seed sig

/-- Environment variables read by the server code.  String-valued toggles are
verbatim os.Getenv results (unset reads as ""). The two duration variables
are modelled by the result of time.ParseDuration: none when the variable is
unset or does not parse, some d (nanoseconds) otherwise. -/
structure Env where
  BUCKET : String
  VERIFY_SIGN_HASH : String
  VERIFY_SEED : String
  VERIFY_SEED_SIGNATURE : String
  VERIFY_SEED_SIGNATURE_FALLBACK : String
  VERIFY_SEED_HASH : String
  SEED_VALIDITY_DURATION : Option Int
  SIGNED_URL_DURATION : Option Int
deriving DecidableEq, Repr

/-- External collaborators of one request: the clock, the appengine
certificate service, the raw allowlist object (error when the bucket object
cannot be opened, read, or YAML-parsed), the appengine service account, and
whether appengine.SignBytes fails. -/
structure World where
  now : Int
  pubCerts : Except String (List Certificate)
  allowlistFetch : Except String (List String)
  serviceAccount : Option String
  signFails : Bool
deriving Repr

/-- Go len on strings counts UTF-8 bytes. -/
def goStrLen (s : String) : Nat := (s.data.map Char.utf8Size).sum

/-- Hex digit characters used by hex.EncodeToString (lowercase). -/
def hexDigit (n : Nat) : Char :=
  if n < 10 then Char.ofNat (48 + n) else Char.ofNat (87 + n)

/-- hex.EncodeToString: two lowercase hex digits per byte. -/
def hexEncode (b : Bytes) : String :=
  String.mk (b.foldr (fun x acc => hexDigit (x / 16 % 16) :: hexDigit (x % 16) :: acc) [])

/-- strings.ToLower as applied to allowlist entries (hex hash strings, so the
ASCII case mapping is the whole story). -/
def goToLower (s : String) : String := String.mk (s.data.map Char.toLower)

/-- getAllowlist (sign.go): the bucket read and YAML parse are the
allowlistFetch input; on success every entry is lowercased into the lookup
set (map membership is list membership here). -/
def getAllowlist (fetched : Except String (List String)) : Except String (List String) :=
  match fetched with
  | .error e => .error e
  | .ok es => .ok (es.map goToLower)

/-- Error results of validSignHash (sign.go 221-239), one per return site. -/
inductive HashErr where
  | bucketUnset
  | allowlistError (e : String)
  | notInList (hexHash : String)
deriving DecidableEq, Repr

/-- validSignHash (sign.go 221-239): requires BUCKET, fetches the allowlist,
and accepts iff the hex encoding of the request hash is in it. -/
def validSignHash (env : Env) (w : World) (requestHash : Bytes) : Except HashErr Unit :=
  if env.BUCKET = "" then .error .bucketUnset
  else
    match getAllowlist w.allowlistFetch with
    | .error e => .error (.allowlistError e)
    | .ok acceptedHashes =>
      let h := hexEncode requestHash
      if acceptedHashes.contains h then .ok () else .error (.notInList h)

/-- Error results of validSeedSignature (sign.go 290-343). -/
inductive SigErr where
  | pubCertsError (e : String)
  | unverifiable
deriving DecidableEq, Repr

/-- validSeedSignature (sign.go 290-343): fetch the current platform
certificates; if VERIFY_SEED_SIGNATURE_FALLBACK is "true" append the
certificates embedded in the presented seed; succeed iff some candidate
certificate verifies the signature over the JSON serialization of the
presented seed, else fail unverifiable.  The candidate computation is the
certs variable of the Go function. -/
def fallbackCerts (env : Env) (appCerts : List Certificate) (seed : Seed) :
    List Certificate :=
  if env.VERIFY_SEED_SIGNATURE_FALLBACK = "true" then appCerts ++ seed.Certs else appCerts

/-- validSeedSignature continued: the candidate list is tried in order and the
first verifying certificate suffices. -/
def validSeedSignature (env : Env) (w : World) (seed : Seed) (sig : Sig) : Except SigErr Unit :=
  match w.pubCerts with
  | .error e => .error (.pubCertsError e)
  | .ok appCerts =>
    if (fallbackCerts env appCerts seed).any (fun c => certVerifies c seed sig) then .ok ()
    else .error .unverifiable

/-- Error results of validSeed (sign.go 245-288), one per return site;
validityUnset covers both the unset and the unparsable
SEED_VALIDITY_DURATION returns. -/
inductive SeedErr where
  | invalidUsername (u : String)
  | validityUnset
  | issuedInFuture
  | expired
  | signature (e : SigErr)
deriving DecidableEq, Repr

/-- validSeed (sign.go 245-288): immediately ok unless VERIFY_SEED is exactly
"true"; then username length at least 3, a configured validity duration,
Issued not after now, Issued + duration not before now; then ok unless
VERIFY_SEED_SIGNATURE is exactly "true", in which case the signature must
verify. -/
def validSeed (env : Env) (w : World) (seed : Seed) (sig : Sig) : Except SeedErr Unit :=
  if env.VERIFY_SEED ≠ "true" then .ok ()
  else if goStrLen seed.Username < 3 then .error (.invalidUsername seed.Username)
  else
    match env.SEED_VALIDITY_DURATION with
    | none => .error .validityUnset
    | some d =>
      if w.now < seed.Issued then .error .issuedInFuture
      else if seed.Issued + d < w.now then .error .expired
      else if env.VERIFY_SEED_SIGNATURE ≠ "true" then .ok ()
      else
        match validSeedSignature env w seed sig with
        | .error e => .error (.signature e)
        | .ok () => .ok ()

/-- Character class of macRegEx = "([^0-9,a-f,A-F,:])" (sign.go 45).  The
commas separating the ranges sit inside the character class, so the class
admits the digits, the COMMA itself, a-f, A-F and the colon. -/
def macAllowedChar (c : Char) : Bool :=
  (48 ≤ c.toNat && c.toNat ≤ 57) || c == ',' ||
  (97 ≤ c.toNat && c.toNat ≤ 102) || (65 ≤ c.toNat && c.toNat ≤ 70) || c == ':'

/-- regexp.MatchString(macRegEx, mac): true iff some character of mac falls
outside the class. -/
def macRegExMatches (mac : String) : Bool :=
  mac.data.any (fun c => !(macAllowedChar c))

/-- strings.Replace(mac, ":", "", -1). -/
def stripColons (mac : String) : String :=
  String.mk (mac.data.filter (fun c => c ≠ ':'))

/-- Error results of validSignRequest (sign.go 173-216), one per return site.
The regexp compile error branch is omitted: macRegEx is a fixed valid
pattern, so regexp.MatchString never errors on it. -/
inductive SignReqError where
  | macTooShort (m : String)
  | macTooLong (m : String)
  | macInvalid (mac : String)
  | hashNotValid (e : HashErr)
  | seedInvalid (e : SeedErr)
  | emptyPath
deriving DecidableEq, Repr

/-- MAC loop of validSignRequest (sign.go 174-191): after colon stripping the
length must be exactly 12 bytes, and no character of the original string may
match macRegEx. -/
def macCheck (mac : String) : Except SignReqError Unit :=
  if goStrLen (stripColons mac) < 12 then .error (.macTooShort (stripColons mac))
  else if goStrLen (stripColons mac) > 12 then .error (.macTooLong (stripColons mac))
  else if macRegExMatches mac then .error (.macInvalid mac)
  else .ok ()

/-- First failure of the MAC loop over the request identifiers, if any. -/
def firstMacError : List String → Option SignReqError
  | [] => none
  | mac :: rest =>
    match macCheck mac with
    | .error e => some e
    | .ok () => firstMacError rest

/-- Tail of validSignRequest after the hash gate (sign.go 205-215): the
request hash is inserted into the presented seed before validSeed, and the
path must be non-empty. -/
def validSignRequestAfterHash (env : Env) (w : World) (sr : SignRequest) :
    Except SignReqError Unit :=
  match validSeed env w { sr.Seed with Hash := sr.Hash } sr.Signature with
  | .error e => .error (.seedInvalid e)
  | .ok () =>
    if goStrLen sr.Path < 1 then .error .emptyPath else .ok ()

/-- validSignRequest (sign.go 173-216): MAC loop; the hash check runs (and is
logged) regardless of the toggle, but fails the request only when
VERIFY_SIGN_HASH is exactly "true"; then the seed check and the path check. -/
def validSignRequest (env : Env) (w : World) (sr : SignRequest) : Except SignReqError Unit :=
  match firstMacError sr.Mac with
  | some e => .error e
  | none =>
    match validSignHash env w sr.Hash with
    | .error e =>
      if env.VERIFY_SIGN_HASH = "true" then .error (.hashNotValid e)
      else validSignRequestAfterHash env w sr
    | .ok () => validSignRequestAfterHash env w sr

/-- storage.SignedURLOptions as filled in by signedURL, together with the
bucket and object the URL is minted for. -/
structure SignedURLOpts where
  bucket : String
  file : String
  accessID : String
  method : String
  expires : Int
deriving DecidableEq, Repr

/-- time.Minute in nanoseconds. -/
def minuteNs : Int := 60000000000

/-- Two's-complement wrap-around of Go int64 (time.Duration) arithmetic. -/
def wrap64 (x : Int) : Int := (x + 2 ^ 63) % 2 ^ 64 - 2 ^ 63

/-- signedURL (sign.go 348-363): resolve the appengine service account (error
when it cannot be resolved), then mint a GET signed URL with Expires =
time.Now().Add(time.Minute * duration).  Both factors of the product are Go
time.Duration values (int64 nanosecond counts), so the product wraps. -/
def signedURL (w : World) (bucket file : String) (duration : Int) :
    Except String SignedURLOpts :=
  match w.serviceAccount with
  | none => .error "appengine.ServiceAccount failed"
  | some sa =>
    .ok { bucket := bucket, file := file, accessID := sa, method := "GET",
          expires := w.now + wrap64 (minuteNs * duration) }

/-- Rendering of the URL string returned by storage.SignedURL, modelled as a
readable encoding of the minted options. -/
def renderURL (o : SignedURLOpts) : String :=
  o.method ++ " " ++ o.bucket ++ "/" ++ o.file ++ "?GoogleAccessId=" ++ o.accessID ++
  "&Expires=" ++ toString o.expires

/-- ProcessSignRequest (sign.go 113-143) after a successfully unmarshalled
request: a validation or signing failure yields StatusSignError and no URL
(the Go Status strings carry the error text; they are not modelled verbatim);
success yields the rendered signed URL. -/
def processSignRequest (env : Env) (w : World) (bucket : String) (duration : Int)
    (sr : SignRequest) : SignResponse :=
  match validSignRequest env w sr with
  | .error _ => { Status := "validSignRequest error", ErrorCode := StatusSignError, SignedURL := "" }
  | .ok () =>
    match signedURL w bucket sr.Path duration with
    | .error e => { Status := e, ErrorCode := StatusSignError, SignedURL := "" }
    | .ok opts =>
      { Status := "Success", ErrorCode := StatusSuccess, SignedURL := renderURL opts }

/-- Error results of validateSeedRequest (seed endpoint). -/
inductive SeedReqErr where
  | noUsername
  | notInAllowlist (hexHash : String)
deriving DecidableEq, Repr

/-- validateSeedRequest (seed endpoint): the caller identity must be
non-empty and the hex encoding of the request hash must be allowlisted. -/
def validateSeedRequest (u : String) (sr : SeedRequest) (ah : List String) :
    Except SeedReqErr Unit :=
  if goStrLen u < 1 then .error .noUsername
  else if ah.contains (hexEncode sr.Hash) then .ok ()
  else .error (.notInAllowlist (hexEncode sr.Hash))

/-- generateSeed (seed endpoint): Issued = now, Username = the authenticated
user, Hash = the requested hash; Certs left nil. -/
def generateSeed (hash : Bytes) (u : String) (now : Int) : Seed :=
  { Issued := now, Username := u, Certs := [], Hash := hash }

/-- signSeedResponse (seed endpoint 368-397): fetch the platform certificates
and attach them to the seed, sign the JSON serialization of that seed, then
nil out the Hash so it is not echoed back, and return the response. -/
def signSeedResponse (w : World) (s : Seed) : Except String SeedResponse :=
  match w.pubCerts with
  | .error e => .error ("sign failed: appengine.PublicCertificates returned " ++ e)
  | .ok certs =>
    let s1 := { s with Certs := certs }
    if w.signFails then .error "sign failed"
    else
      let sig := signBytes s1
      let s2 := { s1 with Hash := [] }
      .ok { Status := "success", ErrorCode := StatusSuccess, Seed := s2, Signature := sig }

/-- populateAllowlist (seed endpoint): requires BUCKET, then getAllowlist. -/
def populateAllowlist (env : Env) (w : World) : Except String (List String) :=
  if env.BUCKET = "" then .error "BUCKET environment variable not set"
  else getAllowlist w.allowlistFetch

/-- Outcome of the seed HTTP handler after unmarshalling: an http.Error with
a models status code, or the JSON-encoded SeedResponse. -/
inductive SeedHandlerResult where
  | httpError (code : Nat)
  | ok (resp : SeedResponse)
deriving DecidableEq, Repr

/-- Substring gate of the seed handler: of the two validateSeedRequest error
messages, exactly the not-in-allowlist one contains "not in allowlist". -/
def errMentionsAllowlist : SeedReqErr → Bool
  | .noUsername => false
  | .notInAllowlist _ => true

/-- Final stage of the seed handler: generate and sign the seed. -/
def seedHandlerSign (w : World) (user : String) (sr : SeedRequest) : SeedHandlerResult :=
  match signSeedResponse w (generateSeed sr.Hash user w.now) with
  | .error _ => .httpError StatusSignError
  | .ok resp => .ok resp

/-- Seed handler after the allowlist was populated (or defaulted to nil when
an allowlist fetch failure was not enforced): a validateSeedRequest failure
is fatal unless it is the not-in-allowlist error while VERIFY_SEED_HASH is
not "true". -/
def seedHandlerValidated (env : Env) (w : World) (user : String) (sr : SeedRequest)
    (ah : List String) : SeedHandlerResult :=
  match validateSeedRequest user sr ah with
  | .error e =>
    if !(errMentionsAllowlist e) || env.VERIFY_SEED_HASH = "true" then
      .httpError StatusReqUnreadable
    else seedHandlerSign w user sr
  | .ok () => seedHandlerSign w user sr

/-- SeedRequestHandler.ServeHTTP after unmarshalling (seed endpoint 246-316):
no authenticated user fails StatusInvalidUser; a failed allowlist fetch fails
StatusSeedError only when VERIFY_SEED_HASH is exactly "true" (otherwise the
handler logs and continues with a nil allowlist); then validation, seed
generation and signing. -/
def seedRequestHandler (env : Env) (w : World) (u : Option String) (sr : SeedRequest) :
    SeedHandlerResult :=
  match u with
  | none => .httpError StatusInvalidUser
  | some user =>
    match populateAllowlist env w with
    | .error _ =>
      if env.VERIFY_SEED_HASH = "true" then .httpError StatusSeedError
      else seedHandlerValidated env w user sr []
    | .ok ah => seedHandlerValidated env w user sr ah

/-- Installer error sentinels (cli/installer/installer.go) relevant to
seedRequest, mirroring the wrapped sentinel of each return site. -/
inductive InstErr where
  | input
  | connect
  | post (e : String)
  | readBody
  | response (hash : String)
  | format
  | seedStatus (status : String) (code : Nat)
deriving DecidableEq, Repr

/-- HTTP exchange outcome seen by the installer client: a client.Do error, a
body read error, or the raw response payload. -/
inductive HTTPOutcome where
  | doErr (e : String)
  | readErr
  | body (payload : String)
deriving DecidableEq, Repr

/-- strings.Contains on character lists. -/
def containsSub (needle : List Char) : List Char → Bool
  | [] => needle.isEmpty
  | c :: t => List.isPrefixOf needle (c :: t) || containsSub needle t

/-- seedRequest (installer.go 728-769): an empty hash fails errInput;
building the POST request fails errConnect when the configured URL is
invalid; a client.Do failure is errPost; a body read failure its own error; a
payload containing "not in allowlist" is errResponse; a payload that does not
decode is errFormat; a decoded response with non-success ErrorCode is
errSeed; otherwise the decoded response is returned.  dec models
json.Unmarshal into models.SeedResponse. -/
def seedRequest (hash : String) (urlOk : Bool) (out : HTTPOutcome)
    (dec : String → Option SeedResponse) : Except InstErr SeedResponse :=
  if hash = "" then .error .input
  else if !urlOk then .error .connect
  else
    match out with
    | .doErr e => .error (.post e)
    | .readErr => .error .readBody
    | .body payload =>
      if containsSub ("not in allowlist".data) payload.data then .error (.response hash)
      else
        match dec payload with
        | none => .error .format
        | some r =>
          if r.ErrorCode ≠ StatusSuccess then .error (.seedStatus r.Status r.ErrorCode)
          else .ok r

/-- JSON documents produced by encoding/json in this protocol, at the value
level.  Byte slices (rendered base64) and integers keep dedicated injective
constructors, mirroring the injective textual renderings. -/
inductive Json where
  | null : Json
  | str : String → Json
  | int : Int → Json
  | bytes : Bytes → Json
  | arr : List Json → Json
  | obj : List (String × Json) → Json
deriving Repr

/-- encoding/json of a nil-able byte slice: nil marshals to JSON null, a
non-nil slice to its base64 rendering. -/
def bytesToJson (b : Bytes) : Json :=
  if b = [] then Json.null else Json.bytes b

/-- Inverse of bytesToJson. -/
def bytesFromJson : Json → Option Bytes
  | Json.null => some []
  | Json.bytes b => some b
  | _ => none

/-- encoding/json of the modelled certificate Data field. -/
def certDataToJson : Option Int → Json
  | none => Json.null
  | some k => Json.int k

/-- Inverse of certDataToJson. -/
def certDataFromJson : Json → Option (Option Int)
  | Json.null => some none
  | Json.int k => some (some k)
  | _ => none

/-- encoding/json of appengine.Certificate: both fields, in struct order. -/
def Certificate.toJson (c : Certificate) : Json :=
  Json.obj [("KeyName", Json.str c.KeyName), ("Data", certDataToJson c.Data)]

/-- Inverse of Certificate.toJson. -/
def Certificate.fromJson : Json → Option Certificate
  | Json.obj [("KeyName", Json.str kn), ("Data", d)] =>
    match certDataFromJson d with
    | some data => some { KeyName := kn, Data := data }
    | none => none
  | _ => none

/-- encoding/json of a certificate list. -/
def certsToJson (cs : List Certificate) : Json :=
  Json.arr (cs.map Certificate.toJson)

/-- Element-wise inverse of certsToJson. -/
def certListFromJson : List Json → Option (List Certificate)
  | [] => some []
  | j :: rest =>
    match Certificate.fromJson j, certListFromJson rest with
    | some c, some cs => some (c :: cs)
    | _, _ => none

/-- json.Marshal of models.Seed: all four fields, in struct order (no
omitempty tags in the source). -/
def Seed.toJson (s : Seed) : Json :=
  Json.obj [("Issued", Json.int s.Issued), ("Username", Json.str s.Username),
            ("Certs", certsToJson s.Certs), ("Hash", bytesToJson s.Hash)]

/-- Inverse of Seed.toJson. -/
def Seed.fromJson : Json → Option Seed
  | Json.obj [("Issued", Json.int t), ("Username", Json.str u),
              ("Certs", Json.arr cj), ("Hash", h)] =>
    match certListFromJson cj, bytesFromJson h with
    | some cs, some hb => some { Issued := t, Username := u, Certs := cs, Hash := hb }
    | _, _ => none
  | _ => none

/-- encoding/json of the symbolic signature bytes (base64 in the real
artifact; the symbolic pair here). -/
def Sig.toJson (sig : Sig) : Json :=
  Json.obj [("key", Json.int sig.key), ("msg", Seed.toJson sig.msg)]

/-- Inverse of Sig.toJson. -/
def Sig.fromJson : Json → Option Sig
  | Json.obj [("key", Json.int k), ("msg", m)] =>
    match Seed.fromJson m with
    | some s => some { key := k, msg := s }
    | none => none
  | _ => none

/-- json.MarshalIndent of models.SeedFile: exactly the Seed and Signature
fields, in struct order. -/
def SeedFile.toJson (f : SeedFile) : Json :=
  Json.obj [("Seed", Seed.toJson f.Seed), ("Signature", Sig.toJson f.Signature)]

/-- json.Unmarshal of a persisted seed.json back into models.SeedFile. -/
def SeedFile.fromJson : Json → Option SeedFile
  | Json.obj [("Seed", sj), ("Signature", gj)] =>
    match Seed.fromJson sj, Sig.fromJson gj with
    | some s, some g => some { Seed := s, Signature := g }
    | _, _ => none
  | _ => none

/-- Top-level keys of a JSON object. -/
def jsonKeys : Json → List String
  | Json.obj fields => fields.map Prod.fst
  | _ => []

/-- Data path of writeSeed (installer.go 677-685): the persisted seed.json is
the JSON serialization of a models.SeedFile holding exactly the Seed and the
Signature of the server response; Status and ErrorCode are dropped. -/
def writeSeedContent (sr : SeedResponse) : Json :=
  SeedFile.toJson { Seed := sr.Seed, Signature := sr.Signature }

theorem bytesFromJson_toJson (b : Bytes) : bytesFromJson (bytesToJson b) = some b := by
  by_cases h : b = [] <;> simp [bytesToJson, bytesFromJson, h]

theorem certDataFromJson_toJson (d : Option Int) :
    certDataFromJson (certDataToJson d) = some d := by
  cases d <;> rfl

theorem certFromJson_toJson (c : Certificate) :
    Certificate.fromJson (Certificate.toJson c) = some c := by
  cases c with
  | mk kn d =>
    simp [Certificate.toJson, Certificate.fromJson, certDataFromJson_toJson]

theorem certListFromJson_map (cs : List Certificate) :
    certListFromJson (cs.map Certificate.toJson) = some cs := by
  induction cs with
  | nil => rfl
  | cons c rest ih => simp [certListFromJson, certFromJson_toJson, ih]

theorem seedFromJson_toJson (s : Seed) : Seed.fromJson (Seed.toJson s) = some s := by
  cases s with
  | mk t u cs h =>
    simp [Seed.toJson, Seed.fromJson, certsToJson, certListFromJson_map, bytesFromJson_toJson]

theorem Seed.toJson_inj {a b : Seed} (h : Seed.toJson a = Seed.toJson b) : a = b := by
  have ha := seedFromJson_toJson a
  rw [h, seedFromJson_toJson b] at ha
  exact (Option.some.inj ha).symm

theorem sigFromJson_toJson (sig : Sig) : Sig.fromJson (Sig.toJson sig) = some sig := by
  cases sig with
  | mk k m => simp [Sig.toJson, Sig.fromJson, seedFromJson_toJson]

theorem seedFileFromJson_toJson (f : SeedFile) :
    SeedFile.fromJson (SeedFile.toJson f) = some f := by
  cases f with
  | mk s g => simp [SeedFile.toJson, SeedFile.fromJson, seedFromJson_toJson, sigFromJson_toJson]

/-- Fixture: certificate carrying the current platform signing key. -/
def certApp : Certificate := { KeyName := "signing-key-current", Data := some appKey }

/-- Fixture: certificate for a rotated-away signing key. -/
def certOld : Certificate := { KeyName := "signing-key-old", Data := some 1 }

/-- Fixture environment with every enforcement toggle set to "true" and sane
durations (the seed validity is 168h, the signed URL lifetime 5m, both as in
the repository tests). -/
def envOn : Env :=
  { BUCKET := "test", VERIFY_SIGN_HASH := "true", VERIFY_SEED := "true",
    VERIFY_SEED_SIGNATURE := "true", VERIFY_SEED_SIGNATURE_FALLBACK := "",
    VERIFY_SEED_HASH := "true", SEED_VALIDITY_DURATION := some 604800000000000,
    SIGNED_URL_DURATION := some 300000000000 }

/-- Fixture environment with every toggle unset (os.Getenv default ""). -/
def envOff : Env :=
  { BUCKET := "test", VERIFY_SIGN_HASH := "", VERIFY_SEED := "",
    VERIFY_SEED_SIGNATURE := "", VERIFY_SEED_SIGNATURE_FALLBACK := "",
    VERIFY_SEED_HASH := "", SEED_VALIDITY_DURATION := some 604800000000000,
    SIGNED_URL_DURATION := some 300000000000 }

/-- Fixture world: working platform services, one current certificate, and an
allowlist object whose single entry is the (uppercase, to exercise the
lowercasing) hex encoding of the byte sequence ff00. -/
def wOk : World :=
  { now := 1700000000000000000, pubCerts := .ok [certApp],
    allowlistFetch := .ok ["FF00"], serviceAccount := some "svc@test",
    signFails := false }

/-- Fixture: a seed as signed at issuance, hash still present and the current
platform certificate attached, issued comfortably inside the validity window. -/
def seedSigned : Seed :=
  { Issued := 1699999000000000000, Username := "testuser", Certs := [certApp],
    Hash := [255, 0] }

/-- Fixture: the same seed as returned to and later presented by the client,
hash stripped. -/
def seedHeld : Seed := { seedSigned with Hash := [] }

/-- C10: the seed.json artifact persisted by writeSeed holds exactly the Seed
and the Signature of the server response (top-level keys Seed and Signature
only, no Status or ErrorCode), and unmarshalling the persisted JSON returns
that Seed and that Signature unchanged. -/
theorem c10_writeSeed_roundtrip (sr : SeedResponse) :
    SeedFile.fromJson (writeSeedContent sr) =
      some { Seed := sr.Seed, Signature := sr.Signature } ∧
    jsonKeys (writeSeedContent sr) = ["Seed", "Signature"] :=
  ⟨seedFileFromJson_toJson _, rfl⟩

/-- C5: evaluation of signedURL at the 5m SIGNED_URL_DURATION used by the
repository tests: the service identity resolves and the URL is GET-scoped,
but the expiry is not now + duration; the Duration-by-Duration product
time.Minute * duration wraps int64 and lands about 127 years in the past. -/
theorem c5_expiry_evaluation :
    ∃ opts, signedURL wOk "test" "dummy/folder/file.txt" 300000000000 = .ok opts ∧
      opts.method = "GET" ∧
      opts.expires ≠ wOk.now + 300000000000 ∧
      opts.expires < wOk.now :=
  ⟨_, rfl, rfl, by decide, by decide⟩

/-- C2: evaluation at the failing input: the identifier 1,3456789abc is not
reducible to 12 hex characters (it contains a comma), yet the MAC check and
the whole sign request validation accept it, because the character class of
macRegEx literally contains the comma — contradicting the code's own comment
that a valid Mac address can only contain hexadecimal characters and colons. -/
theorem c2_comma_mac_accepted :
    macCheck "1,3456789abc" = .ok () ∧
    validSignRequest envOn wOk
      { Seed := seedHeld, Signature := signBytes seedSigned,
        Mac := ["1,3456789abc"], Path := "dummy/folder/file.txt", Hash := [255, 0] } =
      .ok () := by
  exact ⟨by decide, by decide⟩

/-- C6 counterexample: with VERIFY_SIGN_HASH unset, a failed allowlist fetch
(an upstream error) does not fail the sign request: validation succeeds
end-to-end, contradicting the claim that upstream errors fail the request
regardless of the toggle. -/
theorem c6_counterexample :
    validSignRequest envOff
      { wOk with allowlistFetch := .error "storage unavailable" }
      { Seed := seedHeld, Signature := signBytes seedSigned,
        Mac := ["123456789abc"], Path := "dummy/folder/file.txt", Hash := [255, 0] } =
      .ok () := by
  decide

/-- Fixture environment for the fallback counterexample: seed and signature
enforcement on, fallback explicitly "false", hash enforcement off. -/
def envNoFallback : Env :=
  { envOn with VERIFY_SIGN_HASH := "", VERIFY_SEED_SIGNATURE_FALLBACK := "false" }

/-- C7 counterexample: VERIFY_SEED_SIGNATURE_FALLBACK is "false" (not "true"),
yet an unverifiable signature still fails the request: the platform rotated
to a new certificate, the presented seed embeds the certificate that would
verify, and with fallback disabled the request is rejected — so that toggle
being non-"true" does not make the corresponding check unenforced. -/
theorem c7_counterexample :
    validSignRequest envNoFallback { wOk with pubCerts := .ok [certOld] }
      { Seed := seedHeld, Signature := signBytes seedSigned,
        Mac := ["123456789abc"], Path := "dummy/folder/file.txt", Hash := [255, 0] } =
      .error (.seedInvalid (.signature .unverifiable)) := by
  decide

/-- C1 counterexample: a seed issuance for an allowlisted hash and a non-empty
authenticated identity; the returned Seed has its Hash stripped, but the
returned Signature verifies under NO returned certificate over the JSON
serialization of the returned Seed, because it was produced over the
serialization that still carried the hash. -/
theorem c1_counterexample :
    ∃ resp, seedRequestHandler envOn wOk (some "testuser") { Hash := [255, 0] } =
        SeedHandlerResult.ok resp ∧
      resp.Seed.Hash = [] ∧
      resp.Seed.Certs.all (fun c => !(certVerifies c resp.Seed resp.Signature)) = true :=
  ⟨_, rfl, by decide, by decide⟩

theorem certVerifies_true_inv {c : Certificate} {seed : Seed} {sig : Sig}
    (h : certVerifies c seed sig = true) :
    ∃ k, c.Data = some k ∧ sig = { key := k, msg := seed } := by
  unfold certVerifies at h
  split at h
  · exact absurd h (by simp)
  · rename_i k hk
    exact ⟨k, hk, eq_of_beq h⟩

theorem validSeedSignature_ok_inv {env : Env} {w : World} {seed : Seed} {sig : Sig}
    (h : validSeedSignature env w seed sig = .ok ()) :
    ∃ k, sig = { key := k, msg := seed } := by
  unfold validSeedSignature at h
  split at h
  · exact absurd h (by simp)
  · split at h
    · rename_i hany
      obtain ⟨c, _, hcv⟩ := List.any_eq_true.mp hany
      obtain ⟨k, _, hk⟩ := certVerifies_true_inv hcv
      exact ⟨k, hk⟩
    · exact absurd h (by simp)

theorem validSeed_ok_sig {env : Env} {w : World} {seed : Seed} {sig : Sig}
    (hon : env.VERIFY_SEED = "true") (hsigOn : env.VERIFY_SEED_SIGNATURE = "true")
    (h : validSeed env w seed sig = .ok ()) :
    validSeedSignature env w seed sig = .ok () := by
  unfold validSeed at h
  rw [if_neg (by simp [hon])] at h
  split at h
  · exact absurd h (by simp)
  · split at h
    · exact absurd h (by simp)
    · split at h
      · exact absurd h (by simp)
      · split at h
        · exact absurd h (by simp)
        · rw [if_neg (by simp [hsigOn])] at h
          split at h
          · exact absurd h (by simp)
          · rename_i heq
            rw [heq]

theorem validSignRequest_ok_tail {env : Env} {w : World} {sr : SignRequest}
    (h : validSignRequest env w sr = .ok ()) :
    validSignRequestAfterHash env w sr = .ok () := by
  unfold validSignRequest at h
  split at h
  · exact absurd h (by simp)
  · split at h
    · split at h
      · exact absurd h (by simp)
      · exact h
    · exact h

theorem validSignRequestAfterHash_ok_seed {env : Env} {w : World} {sr : SignRequest}
    (h : validSignRequestAfterHash env w sr = .ok ()) :
    validSeed env w { sr.Seed with Hash := sr.Hash } sr.Signature = .ok () := by
  unfold validSignRequestAfterHash at h
  split at h
  · exact absurd h (by simp)
  · rename_i heq
    rw [heq]

theorem validSignRequestAfterHash_ok_path {env : Env} {w : World} {sr : SignRequest}
    (h : validSignRequestAfterHash env w sr = .ok ()) :
    ¬ goStrLen sr.Path < 1 := by
  unfold validSignRequestAfterHash at h
  split at h
  · exact absurd h (by simp)
  · intro hlt
    rw [if_pos hlt] at h
    exact absurd h (by simp)

/-- C4: validSignRequest overwrites the presented Seed's Hash with the request
Hash before seed validation, so with seed and signature enforcement on, a
request presenting the platform signature over the seed as signed at issuance
together with any different Hash never validates — allowlisted or not. -/
theorem c4_hash_bound_to_signature (env : Env) (w : World) (sr : SignRequest) (s0 : Seed)
    (hseedOn : env.VERIFY_SEED = "true")
    (hsigOn : env.VERIFY_SEED_SIGNATURE = "true")
    (hsig : sr.Signature = signBytes s0)
    (hne : sr.Hash ≠ s0.Hash) :
    validSignRequest env w sr ≠ .ok () := by
  intro hok
  have h1 := validSignRequestAfterHash_ok_seed (validSignRequest_ok_tail hok)
  have h2 := validSeed_ok_sig hseedOn hsigOn h1
  obtain ⟨k, hk⟩ := validSeedSignature_ok_inv h2
  rw [hsig] at hk
  unfold signBytes at hk
  have hmsg : s0 = { sr.Seed with Hash := sr.Hash } := congrArg Sig.msg hk
  exact hne (by rw [hmsg])

/-- C4 witness: the issued signature presented with the wrong hash is
rejected at a concrete input. -/
theorem c4_witness :
    validSignRequest envOn wOk
      { Seed := seedHeld, Signature := signBytes seedSigned,
        Mac := ["123456789abc"], Path := "dummy/folder/file.txt", Hash := [1, 2] } ≠
      .ok () :=
  c4_hash_bound_to_signature envOn wOk _ seedSigned rfl rfl rfl (by decide)

/-- C3: with seed enforcement on, a username of byte length at least 3 and a
configured non-negative validity duration, validSeed rejects a seed whose
Issued plus the duration is before now with the expired error, and a seed
issued after now with the from-the-future error; with seed enforcement off it
accepts every seed regardless of Issued. -/
theorem c3_validSeed_temporal (env : Env) (w : World) (seed : Seed) (sig : Sig) (d : Int)
    (hd : env.SEED_VALIDITY_DURATION = some d) (hd0 : 0 ≤ d)
    (hu : 3 ≤ goStrLen seed.Username) :
    (env.VERIFY_SEED = "true" → seed.Issued + d < w.now →
      validSeed env w seed sig = .error .expired) ∧
    (env.VERIFY_SEED = "true" → w.now < seed.Issued →
      validSeed env w seed sig = .error .issuedInFuture) ∧
    (env.VERIFY_SEED ≠ "true" → validSeed env w seed sig = .ok ()) := by
  refine ⟨?_, ?_, ?_⟩
  · intro hon hexp
    simp only [validSeed, hon, hd]
    rw [if_neg (by simp), if_neg (by omega), if_neg (by omega), if_pos hexp]
  · intro hon hfut
    simp only [validSeed, hon, hd]
    rw [if_neg (by simp), if_neg (by omega), if_pos hfut]
  · intro hoff
    unfold validSeed
    rw [if_pos hoff]

/-- C3 witness: a concrete expired seed and a concrete future-issued seed are
rejected with enforcement on, and the expired one is accepted with
enforcement off. -/
theorem c3_witness :
    validSeed envOn { wOk with now := seedSigned.Issued + 700000000000000 }
      seedSigned (signBytes seedSigned) = .error .expired ∧
    validSeed envOn { wOk with now := seedSigned.Issued - 1 }
      seedSigned (signBytes seedSigned) = .error .issuedInFuture ∧
    validSeed envOff { wOk with now := seedSigned.Issued + 700000000000000 }
      seedSigned (signBytes seedSigned) = .ok () :=
  ⟨(c3_validSeed_temporal envOn _ seedSigned (signBytes seedSigned) 604800000000000
      rfl (by decide) (by decide)).1 rfl (by decide),
   (c3_validSeed_temporal envOn _ seedSigned (signBytes seedSigned) 604800000000000
      rfl (by decide) (by decide)).2.1 rfl (by decide),
   (c3_validSeed_temporal envOff _ seedSigned (signBytes seedSigned) 604800000000000
      rfl (by decide) (by decide)).2.2 (by decide)⟩

/-- C8: a sign request with an empty ResourcePath never validates; when the
identifier, hash and seed stages all pass, validation fails with precisely
the empty-path error; and ProcessSignRequest returns StatusSignError with no
signed URL for it. -/
theorem c8_empty_path (env : Env) (w : World) (sr : SignRequest)
    (hpath : sr.Path = "") :
    validSignRequest env w sr ≠ .ok () ∧
    (firstMacError sr.Mac = none →
      (env.VERIFY_SIGN_HASH ≠ "true" ∨ validSignHash env w sr.Hash = .ok ()) →
      validSeed env w { sr.Seed with Hash := sr.Hash } sr.Signature = .ok () →
      validSignRequest env w sr = .error .emptyPath) ∧
    (∀ bucket d, (processSignRequest env w bucket d sr).SignedURL = "" ∧
      (processSignRequest env w bucket d sr).ErrorCode = StatusSignError) := by
  have hnot : validSignRequest env w sr = .ok () → False := by
    intro hok
    have hlen := validSignRequestAfterHash_ok_path (validSignRequest_ok_tail hok)
    rw [hpath] at hlen
    exact hlen (by decide)
  refine ⟨hnot, ?_, ?_⟩
  · intro hmac hgate hseed
    have hafter : validSignRequestAfterHash env w sr = .error .emptyPath := by
      unfold validSignRequestAfterHash
      rw [hseed]
      rw [if_pos (by rw [hpath]; decide)]
    unfold validSignRequest
    rw [hmac]
    cases hh : validSignHash env w sr.Hash with
    | error e =>
      rcases hgate with hoff | hok2
      · simp only [if_neg hoff]
        exact hafter
      · rw [hh] at hok2
        exact absurd hok2 (by simp)
    | ok u =>
      cases u
      exact hafter
  · intro bucket d
    cases hv : validSignRequest env w sr with
    | ok u =>
      cases u
      exact absurd hv hnot
    | error e =>
      unfold processSignRequest
      rw [hv]
      exact ⟨rfl, rfl⟩

/-- C8 witness: a concrete otherwise-valid request with empty Path fails with
the empty-path error and ProcessSignRequest mints no URL for it. -/
theorem c8_witness :
    validSignRequest envOn wOk
      { Seed := seedHeld, Signature := signBytes seedSigned,
        Mac := ["123456789abc"], Path := "", Hash := [255, 0] } =
      .error .emptyPath ∧
    (processSignRequest envOn wOk "test" 300000000000
      { Seed := seedHeld, Signature := signBytes seedSigned,
        Mac := ["123456789abc"], Path := "", Hash := [255, 0] }).SignedURL = "" :=
  ⟨(c8_empty_path envOn wOk _ rfl).2.1 (by decide) (Or.inr (by decide)) (by decide),
   ((c8_empty_path envOn wOk _ rfl).2.2 "test" 300000000000).1⟩

theorem seedRequest_doErr_eq (hash : String) (dec : String → Option SeedResponse)
    (e : String) (hh : hash ≠ "") :
    seedRequest hash true (.doErr e) dec = .error (.post e) := by
  unfold seedRequest
  rw [if_neg hh]
  rfl

theorem seedRequest_body_eq (hash : String) (dec : String → Option SeedResponse)
    (p : String) (hh : hash ≠ "") :
    seedRequest hash true (.body p) dec =
      (if containsSub ("not in allowlist".data) p.data then .error (.response hash)
       else
         match dec p with
         | none => .error .format
         | some r =>
           if r.ErrorCode ≠ StatusSuccess then .error (.seedStatus r.Status r.ErrorCode)
           else .ok r) := by
  unfold seedRequest
  rw [if_neg hh]
  rfl

/-- C9: with a non-empty hash and a well-formed request URL, the client
seedRequest returns the allowlist-rejection error exactly when the received
payload contains the substring "not in allowlist"; a transport failure yields
the post error, and an undecodable payload without that substring the format
error — pairwise distinct constructors of the error type. -/
theorem c9_error_taxonomy (hash : String) (urlOk : Bool) (out : HTTPOutcome)
    (dec : String → Option SeedResponse)
    (hh : hash ≠ "") (hurl : urlOk = true) :
    (seedRequest hash urlOk out dec = .error (.response hash) ↔
      ∃ p, out = .body p ∧ containsSub ("not in allowlist".data) p.data = true) ∧
    (∀ e, out = .doErr e → seedRequest hash urlOk out dec = .error (.post e)) ∧
    (∀ p, out = .body p → containsSub ("not in allowlist".data) p.data = false →
      dec p = none → seedRequest hash urlOk out dec = .error .format) := by
  subst hurl
  refine ⟨?_, ?_, ?_⟩
  · constructor
    · intro heq
      cases out with
      | doErr e =>
        rw [seedRequest_doErr_eq hash dec e hh] at heq
        exact absurd heq (by simp)
      | readErr =>
        unfold seedRequest at heq
        rw [if_neg hh] at heq
        exact absurd heq (by simp)
      | body p =>
        rw [seedRequest_body_eq hash dec p hh] at heq
        refine ⟨p, rfl, ?_⟩
        by_cases hc : containsSub ("not in allowlist".data) p.data = true
        · exact hc
        · rw [if_neg hc] at heq
          exfalso
          split at heq
          · exact absurd heq (by simp)
          · split at heq
            · exact absurd heq (by simp)
            · exact absurd heq (by simp)
    · rintro ⟨p, hp, hc⟩
      subst hp
      rw [seedRequest_body_eq hash dec p hh, if_pos hc]
  · intro e he
    subst he
    exact seedRequest_doErr_eq hash dec e hh
  · intro p hp hcon hdec
    subst hp
    rw [seedRequest_body_eq hash dec p hh, if_neg (by rw [hcon]; simp), hdec]

/-- C9 witness: concrete exchanges showing the three distinguished results. -/
theorem c9_witness :
    seedRequest "abc" true (.body "request hash xyz not in allowlist: map") (fun _ => none) =
      .error (.response "abc") ∧
    seedRequest "abc" true (.doErr "connection refused") (fun _ => none) =
      .error (.post "connection refused") ∧
    seedRequest "abc" true (.body "garbage") (fun _ => none) = .error .format :=
  ⟨(c9_error_taxonomy "abc" true _ _ (by decide) rfl).1.mpr ⟨_, rfl, by decide⟩,
   (c9_error_taxonomy "abc" true _ _ (by decide) rfl).2.1 _ rfl,
   (c9_error_taxonomy "abc" true _ _ (by decide) rfl).2.2 _ rfl (by decide) rfl⟩

/-- C1 (amended): for every seed request with an allowlisted hash and a
non-empty authenticated identity, when the certificate service returns a
certificate for the current signing key and signing succeeds, the handler
returns a response whose Seed.Hash is empty and whose Signature verifies —
over the canonical JSON serialization of the returned Seed with its Hash
field restored to the requested hash — against at least one of the
certificates returned in Seed.Certs. -/
theorem c1_issued_signature (env : Env) (w : World) (u : String) (sr : SeedRequest)
    (ah : List String) (certs : List Certificate)
    (hu : 1 ≤ goStrLen u)
    (hpop : populateAllowlist env w = .ok ah)
    (hmem : ah.contains (hexEncode sr.Hash) = true)
    (hcerts : w.pubCerts = .ok certs)
    (happ : ∃ c ∈ certs, c.Data = some appKey)
    (hsign : w.signFails = false) :
    ∃ resp, seedRequestHandler env w (some u) sr = .ok resp ∧
      resp.Seed.Hash = [] ∧
      ∃ c ∈ resp.Seed.Certs,
        certVerifies c { resp.Seed with Hash := sr.Hash } resp.Signature = true := by
  obtain ⟨c, hcmem, hck⟩ := happ
  have h1 : seedRequestHandler env w (some u) sr = seedHandlerValidated env w u sr ah := by
    unfold seedRequestHandler
    rw [hpop]
  have h2 : seedHandlerValidated env w u sr ah = seedHandlerSign w u sr := by
    unfold seedHandlerValidated validateSeedRequest
    rw [if_neg (show ¬ goStrLen u < 1 by omega), if_pos hmem]
  have h3 : seedHandlerSign w u sr =
      .ok { Status := "success", ErrorCode := StatusSuccess,
            Seed := { Issued := w.now, Username := u, Certs := certs, Hash := [] },
            Signature := { key := appKey,
                           msg := { Issued := w.now, Username := u, Certs := certs,
                                    Hash := sr.Hash } } } := by
    unfold seedHandlerSign signSeedResponse
    rw [hcerts, hsign]
    rfl
  refine ⟨_, by rw [h1, h2, h3], rfl, ⟨c, hcmem, ?_⟩⟩
  simp [certVerifies, hck, rsaVerify]

/-- C1 witness: concrete issuance at an allowlisted hash. -/
theorem c1_witness :
    ∃ resp, seedRequestHandler envOn wOk (some "testuser") { Hash := [255, 0] } = .ok resp ∧
      resp.Seed.Hash = [] ∧
      ∃ c ∈ resp.Seed.Certs,
        certVerifies c { resp.Seed with Hash := [255, 0] } resp.Signature = true :=
  c1_issued_signature envOn wOk "testuser" { Hash := [255, 0] } ["ff00"] [certApp]
    (by decide) (by decide) (by decide) rfl ⟨certApp, by decide, rfl⟩ rfl

theorem seedHandlerSign_eq (w : World) (user : String) (sreq : SeedRequest)
    (certs : List Certificate) (hcerts : w.pubCerts = .ok certs)
    (hsign : w.signFails = false) :
    seedHandlerSign w user sreq =
      .ok { Status := "success", ErrorCode := StatusSuccess,
            Seed := { Issued := w.now, Username := user, Certs := certs, Hash := [] },
            Signature := { key := appKey,
                           msg := { Issued := w.now, Username := user, Certs := certs,
                                    Hash := sreq.Hash } } } := by
  unfold seedHandlerSign signSeedResponse
  rw [hcerts, hsign]
  rfl

/-- C6 (amended): allowlist fetch and parse failures (upstream errors) are
downgraded exactly like allowlist misses, on both request paths.  Sign path:
with VERIFY_SIGN_HASH off the outcome is decided entirely by the remaining
checks; with it on the request always fails.  Seed path: with
VERIFY_SEED_HASH off the request proceeds to issuance; with it on it fails
with StatusSeedError.  (Configuration errors caught directly in signResponse
are outside these toggles and always fatal there.) -/
theorem c6_upstream_downgrade (env : Env) (w : World) (sr : SignRequest)
    (sreq : SeedRequest) (user : String) (certs : List Certificate) (e : String)
    (hfetch : w.allowlistFetch = .error e) :
    (env.VERIFY_SIGN_HASH ≠ "true" → firstMacError sr.Mac = none →
      validSignRequest env w sr = validSignRequestAfterHash env w sr) ∧
    (env.VERIFY_SIGN_HASH = "true" → validSignRequest env w sr ≠ .ok ()) ∧
    (env.VERIFY_SEED_HASH ≠ "true" → 1 ≤ goStrLen user → w.pubCerts = .ok certs →
      w.signFails = false →
      ∃ resp, seedRequestHandler env w (some user) sreq = .ok resp) ∧
    (env.VERIFY_SEED_HASH = "true" →
      seedRequestHandler env w (some user) sreq = .httpError StatusSeedError) := by
  have hvh : ∃ er, validSignHash env w sr.Hash = .error er := by
    unfold validSignHash getAllowlist
    by_cases hb : env.BUCKET = ""
    · rw [if_pos hb]; exact ⟨_, rfl⟩
    · rw [if_neg hb, hfetch]; exact ⟨_, rfl⟩
  have hpop : ∃ pe, populateAllowlist env w = .error pe := by
    unfold populateAllowlist getAllowlist
    by_cases hb : env.BUCKET = ""
    · rw [if_pos hb]; exact ⟨_, rfl⟩
    · rw [if_neg hb, hfetch]; exact ⟨_, rfl⟩
  obtain ⟨er, hvh⟩ := hvh
  obtain ⟨pe, hpop⟩ := hpop
  refine ⟨?_, ?_, ?_, ?_⟩
  · intro hoff hmac
    unfold validSignRequest
    rw [hmac, hvh]
    show (if env.VERIFY_SIGN_HASH = "true" then Except.error (SignReqError.hashNotValid er)
          else validSignRequestAfterHash env w sr) = validSignRequestAfterHash env w sr
    rw [if_neg hoff]
  · intro hon hok
    unfold validSignRequest at hok
    cases hm : firstMacError sr.Mac with
    | some e2 => rw [hm] at hok; exact absurd hok (by simp)
    | none =>
      rw [hm, hvh] at hok
      have hok2 : (if env.VERIFY_SIGN_HASH = "true"
            then Except.error (SignReqError.hashNotValid er)
            else validSignRequestAfterHash env w sr) = Except.ok () := hok
      rw [if_pos hon] at hok2
      exact absurd hok2 (by simp)
  · intro hoff hu hcerts hsign
    have h1 : seedRequestHandler env w (some user) sreq =
        seedHandlerValidated env w user sreq [] := by
      unfold seedRequestHandler
      rw [hpop]
      show (if env.VERIFY_SEED_HASH = "true" then SeedHandlerResult.httpError StatusSeedError
            else seedHandlerValidated env w user sreq []) =
        seedHandlerValidated env w user sreq []
      rw [if_neg hoff]
    have hval : validateSeedRequest user sreq [] =
        .error (.notInAllowlist (hexEncode sreq.Hash)) := by
      unfold validateSeedRequest
      rw [if_neg (show ¬ goStrLen user < 1 by omega)]
      rfl
    have h2 : seedHandlerValidated env w user sreq [] = seedHandlerSign w user sreq := by
      unfold seedHandlerValidated
      rw [hval]
      show (if (!errMentionsAllowlist (SeedReqErr.notInAllowlist (hexEncode sreq.Hash)) ||
                decide (env.VERIFY_SEED_HASH = "true")) = true
            then SeedHandlerResult.httpError StatusReqUnreadable
            else seedHandlerSign w user sreq) = seedHandlerSign w user sreq
      rw [if_neg (by simp [errMentionsAllowlist, hoff])]
    exact ⟨_, by rw [h1, h2, seedHandlerSign_eq w user sreq certs hcerts hsign]⟩
  · intro hon
    unfold seedRequestHandler
    rw [hpop]
    show (if env.VERIFY_SEED_HASH = "true" then SeedHandlerResult.httpError StatusSeedError
          else seedHandlerValidated env w user sreq []) =
      SeedHandlerResult.httpError StatusSeedError
    rw [if_pos hon]

/-- Fixture world with a failing allowlist fetch. -/
def wFetchErr : World := { wOk with allowlistFetch := .error "storage unavailable" }

/-- C6 witness: the downgrade-or-fail behaviour at concrete inputs, on both
paths and both toggle values. -/
theorem c6_witness :
    validSignRequest envOff wFetchErr
        { Seed := seedHeld, Signature := signBytes seedSigned,
          Mac := ["123456789abc"], Path := "dummy/folder/file.txt", Hash := [255, 0] } =
      validSignRequestAfterHash envOff wFetchErr
        { Seed := seedHeld, Signature := signBytes seedSigned,
          Mac := ["123456789abc"], Path := "dummy/folder/file.txt", Hash := [255, 0] } ∧
    validSignRequest envOn wFetchErr
        { Seed := seedHeld, Signature := signBytes seedSigned,
          Mac := ["123456789abc"], Path := "dummy/folder/file.txt", Hash := [255, 0] } ≠
      .ok () ∧
    (∃ resp, seedRequestHandler envOff wFetchErr (some "testuser") { Hash := [255, 0] } =
      .ok resp) ∧
    seedRequestHandler envOn wFetchErr (some "testuser") { Hash := [255, 0] } =
      .httpError StatusSeedError :=
  ⟨(c6_upstream_downgrade envOff wFetchErr _ { Hash := [255, 0] } "testuser" [certApp]
      "storage unavailable" rfl).1 (by decide) (by decide),
   (c6_upstream_downgrade envOn wFetchErr _ { Hash := [255, 0] } "testuser" [certApp]
      "storage unavailable" rfl).2.1 rfl,
   (c6_upstream_downgrade envOff wFetchErr
      { Seed := seedHeld, Signature := signBytes seedSigned,
        Mac := ["123456789abc"], Path := "dummy/folder/file.txt", Hash := [255, 0] }
      { Hash := [255, 0] } "testuser" [certApp] "storage unavailable" rfl).2.2.1
      (by decide) (by decide) rfl rfl,
   (c6_upstream_downgrade envOn wFetchErr
      { Seed := seedHeld, Signature := signBytes seedSigned,
        Mac := ["123456789abc"], Path := "dummy/folder/file.txt", Hash := [255, 0] }
      { Hash := [255, 0] } "testuser" [certApp] "storage unavailable" rfl).2.2.2 rfl⟩

theorem macCheck_error_shape {m : String} {e : SignReqError} (h : macCheck m = .error e) :
    (∃ s, e = .macTooShort s) ∨ (∃ s, e = .macTooLong s) ∨ (∃ s, e = .macInvalid s) := by
  unfold macCheck at h
  split at h
  · exact Or.inl ⟨_, (Except.error.inj h).symm⟩
  · split at h
    · exact Or.inr (Or.inl ⟨_, (Except.error.inj h).symm⟩)
    · split at h
      · exact Or.inr (Or.inr ⟨_, (Except.error.inj h).symm⟩)
      · exact absurd h (by simp)

theorem firstMacError_shape : ∀ {ms : List String} {e : SignReqError},
    firstMacError ms = some e →
    (∃ s, e = .macTooShort s) ∨ (∃ s, e = .macTooLong s) ∨ (∃ s, e = .macInvalid s) := by
  intro ms
  induction ms with
  | nil => intro e h; exact absurd h (by simp [firstMacError])
  | cons m rest ih =>
    intro e h
    unfold firstMacError at h
    split at h
    · rename_i e2 heq
      cases Option.some.inj h
      exact macCheck_error_shape heq
    · exact ih h

theorem validSignRequestAfterHash_error_shape {env : Env} {w : World} {sr : SignRequest}
    {e : SignReqError} (h : validSignRequestAfterHash env w sr = .error e) :
    (∃ se, e = .seedInvalid se) ∨ e = .emptyPath := by
  unfold validSignRequestAfterHash at h
  split at h
  · exact Or.inl ⟨_, (Except.error.inj h).symm⟩
  · split at h
    · exact Or.inr (Except.error.inj h).symm
    · exact absurd h (by simp)

/-- C7 (amended): the four enforcement toggles VERIFY_SIGN_HASH, VERIFY_SEED,
VERIFY_SEED_SIGNATURE and VERIFY_SEED_HASH leave their checks unenforced for
every value other than exactly "true" (including unset): a hash-allowlist
miss, an invalid or expired seed, or an unverifiable signature then never
fails the request (the hash check still runs; the disabled seed and signature
checks are skipped).  VERIFY_SEED_SIGNATURE_FALLBACK is not an enforcement
toggle: when it is not "true" it only restricts verification to the
platform's current certificates, so an unverifiable signature still fails an
enforced request. -/
theorem c7_toggle_semantics (env : Env) (w : World) (sr : SignRequest) (seed : Seed)
    (g : Sig) (sreq : SeedRequest) (user : String) (certs : List Certificate) :
    (env.VERIFY_SIGN_HASH ≠ "true" →
      ∀ er, validSignRequest env w sr ≠ .error (.hashNotValid er)) ∧
    (env.VERIFY_SEED ≠ "true" → validSeed env w seed g = .ok ()) ∧
    (env.VERIFY_SEED_SIGNATURE ≠ "true" →
      ∀ er, validSeed env w seed g ≠ .error (.signature er)) ∧
    (env.VERIFY_SEED_HASH ≠ "true" → 1 ≤ goStrLen user → w.pubCerts = .ok certs →
      w.signFails = false →
      ∃ resp, seedRequestHandler env w (some user) sreq = .ok resp) ∧
    (env.VERIFY_SEED_SIGNATURE_FALLBACK ≠ "true" → w.pubCerts = .ok certs →
      certs.all (fun c => !(certVerifies c seed g)) = true →
      validSeedSignature env w seed g = .error .unverifiable) := by
  refine ⟨?_, ?_, ?_, ?_, ?_⟩
  · intro hoff er hbad
    unfold validSignRequest at hbad
    cases hm : firstMacError sr.Mac with
    | some e =>
      rw [hm] at hbad
      have hbad2 : (Except.error e : Except SignReqError Unit) =
          .error (.hashNotValid er) := hbad
      rcases firstMacError_shape hm with ⟨s, rfl⟩ | ⟨s, rfl⟩ | ⟨s, rfl⟩ <;>
        exact absurd hbad2 (by simp)
    | none =>
      rw [hm] at hbad
      have hshape : ∀ h2 : validSignRequestAfterHash env w sr = .error (.hashNotValid er),
          False := by
        intro h2
        rcases validSignRequestAfterHash_error_shape h2 with ⟨se, hse⟩ | hse <;>
          exact absurd hse (by simp)
      cases hh : validSignHash env w sr.Hash with
      | error e2 =>
        rw [hh] at hbad
        have hbad2 : (if env.VERIFY_SIGN_HASH = "true"
              then Except.error (SignReqError.hashNotValid e2)
              else validSignRequestAfterHash env w sr) = .error (.hashNotValid er) := hbad
        rw [if_neg hoff] at hbad2
        exact hshape hbad2
      | ok u =>
        cases u
        rw [hh] at hbad
        exact hshape hbad
  · intro hoff
    unfold validSeed
    rw [if_pos hoff]
  · intro hoff er hbad
    unfold validSeed at hbad
    rw [if_pos hoff] at hbad
    split at hbad
    · exact absurd hbad (by simp)
    · split at hbad
      · exact absurd hbad (by simp)
      · split at hbad
        · exact absurd hbad (by simp)
        · split at hbad
          · exact absurd hbad (by simp)
          · split at hbad
            · exact absurd hbad (by simp)
            · exact absurd hbad (by simp)
  · intro hoff hu hcerts hsign
    cases hpop : populateAllowlist env w with
    | error pe =>
      have h1 : seedRequestHandler env w (some user) sreq =
          seedHandlerValidated env w user sreq [] := by
        unfold seedRequestHandler
        rw [hpop]
        show (if env.VERIFY_SEED_HASH = "true" then SeedHandlerResult.httpError StatusSeedError
              else seedHandlerValidated env w user sreq []) =
          seedHandlerValidated env w user sreq []
        rw [if_neg hoff]
      have hval : validateSeedRequest user sreq [] =
          .error (.notInAllowlist (hexEncode sreq.Hash)) := by
        unfold validateSeedRequest
        rw [if_neg (show ¬ goStrLen user < 1 by omega)]
        rfl
      have h2 : seedHandlerValidated env w user sreq [] = seedHandlerSign w user sreq := by
        unfold seedHandlerValidated
        rw [hval]
        show (if (!errMentionsAllowlist (SeedReqErr.notInAllowlist (hexEncode sreq.Hash)) ||
                  decide (env.VERIFY_SEED_HASH = "true")) = true
              then SeedHandlerResult.httpError StatusReqUnreadable
              else seedHandlerSign w user sreq) = seedHandlerSign w user sreq
        rw [if_neg (by simp [errMentionsAllowlist, hoff])]
      exact ⟨_, by rw [h1, h2, seedHandlerSign_eq w user sreq certs hcerts hsign]⟩
    | ok ah =>
      have h1 : seedRequestHandler env w (some user) sreq =
          seedHandlerValidated env w user sreq ah := by
        unfold seedRequestHandler
        rw [hpop]
      have h2 : seedHandlerValidated env w user sreq ah = seedHandlerSign w user sreq := by
        unfold seedHandlerValidated validateSeedRequest
        rw [if_neg (show ¬ goStrLen user < 1 by omega)]
        by_cases hc : ah.contains (hexEncode sreq.Hash) = true
        · rw [if_pos hc]
        · rw [if_neg hc]
          show (if (!errMentionsAllowlist (SeedReqErr.notInAllowlist (hexEncode sreq.Hash)) ||
                    decide (env.VERIFY_SEED_HASH = "true")) = true
                then SeedHandlerResult.httpError StatusReqUnreadable
                else seedHandlerSign w user sreq) = seedHandlerSign w user sreq
          rw [if_neg (by simp [errMentionsAllowlist, hoff])]
      exact ⟨_, by rw [h1, h2, seedHandlerSign_eq w user sreq certs hcerts hsign]⟩
  · intro hfb hcerts hall
    have hanyf : (fallbackCerts env certs seed).any (fun c => certVerifies c seed g) = false := by
      unfold fallbackCerts
      rw [if_neg hfb, List.any_eq_false]
      intro c hc
      have h := List.all_eq_true.mp hall c hc
      simpa using h
    unfold validSeedSignature
    rw [hcerts]
    show (if (fallbackCerts env certs seed).any (fun c => certVerifies c seed g) = true
          then Except.ok () else Except.error SigErr.unverifiable) =
      Except.error SigErr.unverifiable
    rw [if_neg (by simp [hanyf])]

/-- C7 witness: the toggle semantics at concrete inputs, including the
fallback toggle not being an enforcement gate. -/
theorem c7_witness :
    validSignRequest envOff wOk
        { Seed := seedHeld, Signature := signBytes seedSigned,
          Mac := ["123456789abc"], Path := "dummy/folder/file.txt", Hash := [255, 0] } ≠
      .error (.hashNotValid .bucketUnset) ∧
    validSeed envOff wOk seedSigned (signBytes seedSigned) = .ok () ∧
    validSeed envOff wOk seedSigned (signBytes seedSigned) ≠
      .error (.signature .unverifiable) ∧
    (∃ resp, seedRequestHandler envOff wOk (some "testuser") { Hash := [255, 0] } =
      .ok resp) ∧
    validSeedSignature envNoFallback { wOk with pubCerts := .ok [certOld] }
      seedSigned (signBytes seedSigned) = .error .unverifiable :=
  ⟨(c7_toggle_semantics envOff wOk _ seedSigned (signBytes seedSigned)
      { Hash := [255, 0] } "testuser" [certApp]).1 (by decide) .bucketUnset,
   (c7_toggle_semantics envOff wOk
      { Seed := seedHeld, Signature := signBytes seedSigned,
        Mac := ["123456789abc"], Path := "dummy/folder/file.txt", Hash := [255, 0] }
      seedSigned (signBytes seedSigned)
      { Hash := [255, 0] } "testuser" [certApp]).2.1 (by decide),
   (c7_toggle_semantics envOff wOk
      { Seed := seedHeld, Signature := signBytes seedSigned,
        Mac := ["123456789abc"], Path := "dummy/folder/file.txt", Hash := [255, 0] }
      seedSigned (signBytes seedSigned)
      { Hash := [255, 0] } "testuser" [certApp]).2.2.1 (by decide) .unverifiable,
   (c7_toggle_semantics envOff wOk
      { Seed := seedHeld, Signature := signBytes seedSigned,
        Mac := ["123456789abc"], Path := "dummy/folder/file.txt", Hash := [255, 0] }
      seedSigned (signBytes seedSigned)
      { Hash := [255, 0] } "testuser" [certApp]).2.2.2.1 (by decide) (by decide) rfl rfl,
   (c7_toggle_semantics envNoFallback { wOk with pubCerts := .ok [certOld] }
      { Seed := seedHeld, Signature := signBytes seedSigned,
        Mac := ["123456789abc"], Path := "dummy/folder/file.txt", Hash := [255, 0] }
      seedSigned (signBytes seedSigned)
      { Hash := [255, 0] } "testuser" [certOld]).2.2.2.2 (by decide) rfl (by decide)⟩
